import Mathlib

/-!
Verification of the GLB binary-container decoder (`src/glb.rs`).

Bytes are modelled as natural numbers; a byte slice is a `List Nat`.
Reading from a slice (`impl Read for &[u8]`) is modelled by `readBytes`,
which consumes `n` bytes from the front or fails (a failed `read_exact`).
Rust's `slice::split_at`, which panics when the index is out of bounds,
is modelled by the same `readBytes`: at the split sites the surrounding
function propagates `none` for the panic, so totality theorems below
express the no-panic property.

The streaming path (`Glb::from_reader`) is modelled over a scripted
reader: a list of responses, each either a chunk of bytes handed out by
a successful `read` call or a hard I/O failure.
-/

namespace Gltf

/-- Little-endian u32 decoding of a 4-byte list, as done by
`byteorder::ReadBytesExt::read_u32::<LE>` on the bytes it read. -/
def u32leL : List Nat → Nat
  | [b0, b1, b2, b3] => b0 + 256 * b1 + 65536 * b2 + 16777216 * b3
  | _ => 0

/-- Little-endian 4-byte encoding of a u32 value. -/
def u32leBytes (n : Nat) : List Nat :=
  [n % 256, n / 256 % 256, n / 65536 % 256, n / 16777216 % 256]

/-- The bytes of the required magic tag `b"glTF"`. -/
def glTFMagic : List Nat := [103, 108, 84, 70]

/-- The bytes of the JSON chunk tag `b"JSON"`. -/
def jsonTag : List Nat := [74, 83, 79, 78]

/-- The bytes of the binary chunk tag `b"BIN\x00"`. -/
def binTag : List Nat := [66, 73, 78, 0]

/-- `read_exact`/`split_at` on a byte slice: take `n` bytes off the front,
failing when fewer than `n` bytes remain. -/
def readBytes (n : Nat) (data : List Nat) : Option (List Nat × List Nat) :=
  if n ≤ data.length then some (data.take n, data.drop n) else none

/-- The error taxonomy `GlbError` of the crate.  `IoError` wraps an
underlying `std::io::Error`, whose payload is not modelled. -/
inductive GlbError where
  | IoError : GlbError
  | Magic : List Nat → GlbError
  | Version : Nat → GlbError
  | Length : Nat → Nat → GlbError
  | ChunkType : List Nat → GlbError
  | ChunkLength : List Nat → Nat → Nat → GlbError
deriving DecidableEq, Repr

/-- The header section of a .glb file (`struct Header`). -/
structure Header where
  magic : List Nat
  version : Nat
  length : Nat
deriving DecidableEq, Repr

/-- Chunk header with no data read yet (`struct ChunkHeader`). -/
structure ChunkHeader where
  length : Nat
  ty : List Nat
deriving DecidableEq, Repr

/-- The contents of a .glb file (`struct Glb`); `json` and `bin` are the
borrowed byte ranges. -/
structure Glb where
  header : Header
  json : List Nat
  bin : Option (List Nat)
deriving DecidableEq, Repr

/-- `Header::from_reader` instantiated at the slice reader: `read_exact`
of the 4 magic bytes, the magic comparison against `b"glTF"`, then two
little-endian u32 reads for version and length. -/
def Header.from_reader (data : List Nat) : Except GlbError (Header × List Nat) :=
  match readBytes 4 data with
  | none => .error .IoError
  | some (magic, r1) =>
    if magic = glTFMagic then
      match readBytes 4 r1 with
      | none => .error .IoError
      | some (vb, r2) =>
        match readBytes 4 r2 with
        | none => .error .IoError
        | some (lb, r3) => .ok (⟨magic, u32leL vb, u32leL lb⟩, r3)
    else .error (.Magic magic)

/-- `ChunkHeader::from_reader` instantiated at the slice reader: a
little-endian u32 `length` then 4 raw bytes `ty`. -/
def ChunkHeader.from_reader (data : List Nat) : Except GlbError (ChunkHeader × List Nat) :=
  match readBytes 4 data with
  | none => .error .IoError
  | some (lb, r1) =>
    match readBytes 4 r1 with
    | none => .error .IoError
    | some (ty, r2) => .ok (⟨u32leL lb, ty⟩, r2)

/-- `Glb::from_v2`: the chunk splitter.  The outer `Option` layer models
the two `split_at` calls: `none` stands for the panic that would occur
were a split performed past the end of the slice.  Checks appear in
source order: JSON tag, JSON length bound, split; then, when bytes
remain, binary tag, binary length bound, split. -/
def Glb.from_v2 (data : List Nat) :
    Option (Except GlbError (List Nat × Option (List Nat))) :=
  match ChunkHeader.from_reader data with
  | .error e => some (.error e)
  | .ok (json_h, rest) =>
    if json_h.ty = jsonTag then
      if json_h.length ≤ rest.length then
        match readBytes json_h.length rest with
        | none => none
        | some (json, data2) =>
          if 0 < data2.length then
            match ChunkHeader.from_reader data2 with
            | .error e => some (.error e)
            | .ok (bin_h, rest2) =>
              if bin_h.ty = binTag then
                if bin_h.length ≤ rest2.length then
                  match readBytes bin_h.length rest2 with
                  | none => none
                  | some (bin, _) => some (.ok (json, some bin))
                else some (.error (.ChunkLength bin_h.ty bin_h.length rest2.length))
              else some (.error (.ChunkType bin_h.ty))
          else some (.ok (json, none))
      else some (.error (.ChunkLength json_h.ty json_h.length rest.length))
    else some (.error (.ChunkType json_h.ty))

/-- `Glb::from_slice`: header, then the top-level length bound
`header.length as usize <= data.len()` on the remainder, then the
version dispatch, then the chunk splitter over the entire remainder. -/
def Glb.from_slice (data : List Nat) : Option (Except GlbError Glb) :=
  match Header.from_reader data with
  | .error e => some (.error e)
  | .ok (header, rest) =>
    if header.length ≤ rest.length then
      if header.version = 2 then
        match Glb.from_v2 rest with
        | none => none
        | some (.error e) => some (.error e)
        | some (.ok (json, bin)) => some (.ok ⟨header, json, bin⟩)
      else some (.error (.Version header.version))
    else some (.error (.Length header.length rest.length))

/-- One scripted response of a streaming reader: a successful `read`
call handing out `bs`, or a hard I/O failure. -/
inductive ReadStep where
  | chunk : List Nat → ReadStep
  | fail : ReadStep
deriving DecidableEq, Repr

/-- A scripted streaming reader: the sequence of its responses. -/
abbrev Script := List ReadStep

/-- One `Read::read` call against the scripted reader, requesting `n`
bytes: an exhausted script reads 0 bytes, a chunk hands out at most `n`
of its bytes (keeping the rest for later calls), `fail` is an error. -/
def scriptRead (s : Script) (n : Nat) : Option (List Nat × Script) :=
  match s with
  | [] => some ([], [])
  | .fail :: _ => none
  | .chunk bs :: rest =>
    if bs.length ≤ n then some (bs, rest)
    else some (bs.take n, .chunk (bs.drop n) :: rest)

/-- `Read::read_exact` against the scripted reader: loop over `read`
calls until `n` bytes are gathered; a 0-byte read before that is an
`UnexpectedEof` failure.  `none` is the I/O error. -/
def readExact (s : Script) (n : Nat) : Option (List Nat × Script) :=
  match s, n with
  | s, 0 => some ([], s)
  | [], _ + 1 => none
  | .fail :: _, _ + 1 => none
  | .chunk bs :: rest, n + 1 =>
    if n + 1 ≤ bs.length then
      some (bs.take (n + 1),
        if bs.length = n + 1 then rest else .chunk (bs.drop (n + 1)) :: rest)
    else if bs.length = 0 then none
    else (readExact rest (n + 1 - bs.length)).map fun p => (bs ++ p.1, p.2)

/-- `Header::from_reader` instantiated at the streaming reader. -/
def Header.fromScript (s : Script) : Except GlbError (Header × Script) :=
  match readExact s 4 with
  | none => .error .IoError
  | some (magic, s1) =>
    if magic = glTFMagic then
      match readExact s1 4 with
      | none => .error .IoError
      | some (vb, s2) =>
        match readExact s2 4 with
        | none => .error .IoError
        | some (lb, s3) => .ok (⟨magic, u32leL vb, u32leL lb⟩, s3)
    else .error (.Magic magic)

/-- `Glb::from_reader`: header from the stream; on version 2 the buffer
is cleared and grown to `header.length`, a single `read` of
`header.length` bytes is attempted, a failing or short read resets the
buffer length to 0, and a full read hands the populated buffer to the
chunk splitter.  The result pairs the decode outcome with the final
observable contents of the caller-supplied buffer; `none` again stands
for a panic inside the splitter. -/
def Glb.fromReader (s : Script) (buf : List Nat) :
    Option (Except GlbError Glb × List Nat) :=
  match Header.fromScript s with
  | .error e => some (.error e, buf)
  | .ok (header, s1) =>
    if header.version = 2 then
      match scriptRead s1 header.length with
      | none => some (.error .IoError, [])
      | some (bytes, _) =>
        if bytes.length = header.length then
          match Glb.from_v2 bytes with
          | none => none
          | some (.error e) => some (.error e, bytes)
          | some (.ok (json, bin)) => some (.ok ⟨header, json, bin⟩, bytes)
        else some (.error (.Length header.length bytes.length), [])
    else some (.error (.Version header.version), buf)

/-- The example container of the spec: `"glTF"`, version 2, total length
21, a 2-byte JSON chunk `"{}"`, a 3-byte binary chunk `DE AD BE`. -/
def exampleBytes : List Nat :=
  glTFMagic ++ u32leBytes 2 ++ u32leBytes 21 ++
    u32leBytes 2 ++ jsonTag ++ [123, 125] ++
    u32leBytes 3 ++ binTag ++ [222, 173, 190]

/-- Does an error report a truncation or length mismatch (the `IoError`,
`Length` and `ChunkLength` variants)? -/
def isIoOrLengthErr : GlbError → Bool
  | .IoError => true
  | .Length _ _ => true
  | .ChunkLength _ _ _ => true
  | _ => false

/-- A container whose declared length (10) covers only the JSON chunk,
yet which is followed by a full binary chunk: accepted by `from_slice`
(the splitter scans the entire remainder), and its truncations behave
very differently from the tight `exampleBytes`. -/
def looseBytes : List Nat :=
  glTFMagic ++ u32leBytes 2 ++ u32leBytes 10 ++
    u32leBytes 2 ++ jsonTag ++ [123, 125] ++
    u32leBytes 3 ++ binTag ++ [222, 173, 190]

theorem readBytes_of_le {n : Nat} {data : List Nat} (h : n ≤ data.length) :
    readBytes n data = some (data.take n, data.drop n) := by
  unfold readBytes
  rw [if_pos h]

theorem readBytes_of_lt {n : Nat} {data : List Nat} (h : data.length < n) :
    readBytes n data = none := by
  unfold readBytes
  rw [if_neg (by omega)]

theorem readBytes_front {l e : List Nat} {n : Nat} (h : l.length = n) :
    readBytes n (l ++ e) = some (l, e) := by
  unfold readBytes
  rw [if_pos (by simp; omega), List.take_left' h, List.drop_left' h]

theorem readBytes_append {n : Nat} {l e a b : List Nat}
    (h : readBytes n l = some (a, b)) :
    readBytes n (l ++ e) = some (a, b ++ e) := by
  unfold readBytes at h ⊢
  by_cases hn : n ≤ l.length
  · rw [if_pos hn] at h
    obtain ⟨rfl, rfl⟩ : l.take n = a ∧ l.drop n = b := by simpa using h
    rw [if_pos (by simp; omega), List.take_append_of_le_length hn,
      List.drop_append_of_le_length hn]
  · rw [if_neg hn] at h
    exact absurd h (by simp)

theorem readBytes_some_inv {n : Nat} {data a b : List Nat}
    (h : readBytes n data = some (a, b)) :
    n ≤ data.length ∧ a = data.take n ∧ b = data.drop n := by
  unfold readBytes at h
  by_cases hn : n ≤ data.length
  · rw [if_pos hn] at h
    obtain ⟨rfl, rfl⟩ : data.take n = a ∧ data.drop n = b := by simpa using h
    exact ⟨hn, rfl, rfl⟩
  · rw [if_neg hn] at h
    exact absurd h (by simp)

theorem u32leL_u32leBytes {n : Nat} (h : n < 4294967296) :
    u32leL (u32leBytes n) = n := by
  simp only [u32leBytes, u32leL]
  omega

theorem length_u32leBytes (n : Nat) : (u32leBytes n).length = 4 := by
  simp [u32leBytes]

theorem ChunkHeader.chunk_reader_eq (data : List Nat) :
    ChunkHeader.from_reader data =
      if 8 ≤ data.length then
        .ok (⟨u32leL (data.take 4), (data.drop 4).take 4⟩, data.drop 8)
      else .error .IoError := by
  unfold ChunkHeader.from_reader
  by_cases h4 : 4 ≤ data.length
  · simp only [readBytes_of_le h4]
    by_cases h8 : 8 ≤ data.length
    · simp only [readBytes_of_le (show 4 ≤ (data.drop 4).length by simp; omega)]
      rw [if_pos h8]
      simp [List.drop_drop]
    · simp only [readBytes_of_lt (show (data.drop 4).length < 4 by simp; omega)]
      rw [if_neg h8]
  · simp only [readBytes_of_lt (show data.length < 4 by omega)]
    rw [if_neg (by omega)]

theorem Header.header_reader_eq (data : List Nat) :
    Header.from_reader data =
      if 4 ≤ data.length then
        if data.take 4 = glTFMagic then
          if 12 ≤ data.length then
            .ok (⟨glTFMagic, u32leL ((data.drop 4).take 4),
              u32leL ((data.drop 8).take 4)⟩, data.drop 12)
          else .error .IoError
        else .error (.Magic (data.take 4))
      else .error .IoError := by
  unfold Header.from_reader
  by_cases h4 : 4 ≤ data.length
  · simp only [readBytes_of_le h4]
    rw [if_pos h4]
    by_cases hm : data.take 4 = glTFMagic
    · rw [if_pos hm, if_pos hm]
      by_cases h8 : 8 ≤ data.length
      · simp only [readBytes_of_le (show 4 ≤ (data.drop 4).length by simp; omega)]
        by_cases h12 : 12 ≤ data.length
        · simp only [readBytes_of_le
            (show 4 ≤ ((data.drop 4).drop 4).length by simp; omega)]
          rw [if_pos h12]
          simp [List.drop_drop, hm]
        · simp only [readBytes_of_lt
            (show ((data.drop 4).drop 4).length < 4 by simp; omega)]
          rw [if_neg h12]
      · simp only [readBytes_of_lt (show (data.drop 4).length < 4 by simp; omega)]
        rw [if_neg (by omega)]
    · rw [if_neg hm, if_neg hm]
  · simp only [readBytes_of_lt (show data.length < 4 by omega)]
    rw [if_neg h4]

theorem Glb.from_v2_eq (data : List Nat) :
    Glb.from_v2 data =
      if 8 ≤ data.length then
        if (data.drop 4).take 4 = jsonTag then
          if u32leL (data.take 4) ≤ data.length - 8 then
            if 0 < data.length - 8 - u32leL (data.take 4) then
              if 8 ≤ data.length - 8 - u32leL (data.take 4) then
                if (((data.drop 8).drop (u32leL (data.take 4))).drop 4).take 4 =
                    binTag then
                  if u32leL (((data.drop 8).drop (u32leL (data.take 4))).take 4) ≤
                      data.length - 8 - u32leL (data.take 4) - 8 then
                    some (.ok ((data.drop 8).take (u32leL (data.take 4)),
                      some ((((data.drop 8).drop (u32leL (data.take 4))).drop 8).take
                        (u32leL (((data.drop 8).drop (u32leL (data.take 4))).take 4)))))
                  else
                    some (.error (.ChunkLength binTag
                      (u32leL (((data.drop 8).drop (u32leL (data.take 4))).take 4))
                      (data.length - 8 - u32leL (data.take 4) - 8)))
                else
                  some (.error (.ChunkType
                    ((((data.drop 8).drop (u32leL (data.take 4))).drop 4).take 4)))
              else some (.error .IoError)
            else some (.ok ((data.drop 8).take (u32leL (data.take 4)), none))
          else
            some (.error (.ChunkLength jsonTag (u32leL (data.take 4))
              (data.length - 8)))
        else some (.error (.ChunkType ((data.drop 4).take 4)))
      else some (.error .IoError) := by
  unfold Glb.from_v2
  rw [ChunkHeader.chunk_reader_eq data]
  by_cases h8 : 8 ≤ data.length
  · simp only [if_pos h8]
    by_cases hty : (data.drop 4).take 4 = jsonTag
    · simp only [if_pos hty]
      by_cases hn : u32leL (data.take 4) ≤ data.length - 8
      · have hn' : u32leL (data.take 4) ≤ (data.drop 8).length := by
          simp only [List.length_drop]; omega
        simp only [if_pos hn, if_pos hn', readBytes_of_le hn']
        by_cases hd2 : 0 < data.length - 8 - u32leL (data.take 4)
        · have hd2' : 0 < ((data.drop 8).drop (u32leL (data.take 4))).length := by
            simp only [List.length_drop]; omega
          simp only [if_pos hd2, if_pos hd2']
          rw [ChunkHeader.chunk_reader_eq]
          by_cases h8b : 8 ≤ data.length - 8 - u32leL (data.take 4)
          · have h8b' : 8 ≤ ((data.drop 8).drop (u32leL (data.take 4))).length := by
              simp only [List.length_drop]; omega
            simp only [if_pos h8b, if_pos h8b']
            by_cases htyb :
                (((data.drop 8).drop (u32leL (data.take 4))).drop 4).take 4 = binTag
            · simp only [if_pos htyb]
              by_cases hm : u32leL (((data.drop 8).drop (u32leL (data.take 4))).take 4) ≤
                  data.length - 8 - u32leL (data.take 4) - 8
              · have hm' : u32leL (((data.drop 8).drop (u32leL (data.take 4))).take 4) ≤
                    (((data.drop 8).drop (u32leL (data.take 4))).drop 8).length := by
                  simp only [List.length_drop]; omega
                simp only [if_pos hm, if_pos hm', readBytes_of_le hm']
              · have hm' : ¬ u32leL (((data.drop 8).drop (u32leL (data.take 4))).take 4) ≤
                    (((data.drop 8).drop (u32leL (data.take 4))).drop 8).length := by
                  simp only [List.length_drop]; omega
                simp only [if_neg hm, if_neg hm', htyb, List.length_drop]
            · simp only [if_neg htyb]
          · have h8b' : ¬ 8 ≤ ((data.drop 8).drop (u32leL (data.take 4))).length := by
              simp only [List.length_drop]; omega
            simp only [if_neg h8b, if_neg h8b']
        · have hd2' : ¬ 0 < ((data.drop 8).drop (u32leL (data.take 4))).length := by
            simp only [List.length_drop]; omega
          simp only [if_neg hd2, if_neg hd2']
      · have hn' : ¬ u32leL (data.take 4) ≤ (data.drop 8).length := by
          simp only [List.length_drop]; omega
        simp only [if_neg hn, if_neg hn', hty, List.length_drop]
    · simp only [if_pos h8, if_neg hty]
  · simp only [if_neg h8]

theorem Glb.from_v2_isSome (data : List Nat) : (Glb.from_v2 data).isSome := by
  rw [Glb.from_v2_eq data]
  repeat' split
  all_goals simp

theorem Glb.from_slice_isSome (data : List Nat) : (Glb.from_slice data).isSome := by
  unfold Glb.from_slice
  cases hh : Header.from_reader data with
  | error e => simp
  | ok p =>
    obtain ⟨header, rest⟩ := p
    by_cases hl : header.length ≤ rest.length
    · simp only [if_pos hl]
      by_cases hv : header.version = 2
      · simp only [if_pos hv]
        cases hv2 : Glb.from_v2 rest with
        | none =>
          have := Glb.from_v2_isSome rest
          rw [hv2] at this
          simp at this
        | some r =>
          cases r with
          | error e => simp
          | ok q => obtain ⟨j, b⟩ := q; simp
      · simp only [if_neg hv]; simp
    · simp only [if_neg hl]; simp

theorem Glb.fromReader_isSome (s : Script) (buf : List Nat) :
    (Glb.fromReader s buf).isSome := by
  unfold Glb.fromReader
  cases hh : Header.fromScript s with
  | error e => simp
  | ok p =>
    obtain ⟨header, s1⟩ := p
    by_cases hv : header.version = 2
    · simp only [if_pos hv]
      cases hr : scriptRead s1 header.length with
      | none => simp
      | some q =>
        obtain ⟨bytes, s2⟩ := q
        by_cases hb : bytes.length = header.length
        · simp only [if_pos hb]
          cases hv2 : Glb.from_v2 bytes with
          | none =>
            have := Glb.from_v2_isSome bytes
            rw [hv2] at this
            simp at this
          | some r =>
            cases r with
            | error e => simp
            | ok q2 => obtain ⟨j, b⟩ := q2; simp
        · simp only [if_neg hb]; simp
    · simp only [if_neg hv]; simp

theorem ChunkHeader.chunk_reader_front {l t r : List Nat}
    (hl : l.length = 4) (ht : t.length = 4) :
    ChunkHeader.from_reader (l ++ (t ++ r)) = .ok (⟨u32leL l, t⟩, r) := by
  unfold ChunkHeader.from_reader
  simp only [readBytes_front hl, readBytes_front ht]

theorem Header.header_reader_front {v l r : List Nat}
    (hv : v.length = 4) (hl : l.length = 4) :
    Header.from_reader (glTFMagic ++ (v ++ (l ++ r))) =
      .ok (⟨glTFMagic, u32leL v, u32leL l⟩, r) := by
  unfold Header.from_reader
  simp only [readBytes_front (show glTFMagic.length = 4 from rfl),
    readBytes_front hv, readBytes_front hl, if_pos]

theorem Glb.from_v2_front_bin {jl J bl B T : List Nat}
    (h1 : jl.length = 4) (h2 : u32leL jl = J.length)
    (h3 : bl.length = 4) (h4 : u32leL bl = B.length) :
    Glb.from_v2 (jl ++ (jsonTag ++ (J ++ (bl ++ (binTag ++ (B ++ T)))))) =
      some (.ok (J, some B)) := by
  unfold Glb.from_v2
  rw [ChunkHeader.chunk_reader_front h1 (show jsonTag.length = 4 from rfl)]
  simp only [if_pos]
  rw [if_pos (show u32leL jl ≤ (J ++ (bl ++ (binTag ++ (B ++ T)))).length by
    simp [h2])]
  have hrb : readBytes (u32leL jl) (J ++ (bl ++ (binTag ++ (B ++ T)))) =
      some (J, bl ++ (binTag ++ (B ++ T))) := readBytes_front h2.symm
  simp only [hrb]
  rw [if_pos (show 0 < (bl ++ (binTag ++ (B ++ T))).length by simp [h3])]
  rw [ChunkHeader.chunk_reader_front h3 (show binTag.length = 4 from rfl)]
  simp only [if_pos]
  rw [if_pos (show u32leL bl ≤ (B ++ T).length by simp [h4])]
  have hrb2 : readBytes (u32leL bl) (B ++ T) = some (B, T) :=
    readBytes_front h4.symm
  simp only [hrb2]

theorem Glb.from_v2_front_nobin {jl J : List Nat}
    (h1 : jl.length = 4) (h2 : u32leL jl = J.length) :
    Glb.from_v2 (jl ++ (jsonTag ++ J)) = some (.ok (J, none)) := by
  unfold Glb.from_v2
  rw [ChunkHeader.chunk_reader_front h1 (show jsonTag.length = 4 from rfl)]
  simp only [if_pos]
  rw [if_pos (show u32leL jl ≤ J.length by simp [h2])]
  have hrb : readBytes (u32leL jl) J = some (J, []) := by
    have h0 : readBytes (u32leL jl) (J ++ []) = some (J, []) :=
      readBytes_front h2.symm
    simpa using h0
  simp only [hrb]
  rw [if_neg (show ¬ 0 < ([] : List Nat).length by simp)]

theorem Glb.from_slice_ok_of {d : List Nat} {h : Header} {r j : List Nat}
    {b : Option (List Nat)}
    (hh : Header.from_reader d = .ok (h, r)) (hl : h.length ≤ r.length)
    (hv : h.version = 2) (h2 : Glb.from_v2 r = some (.ok (j, b))) :
    Glb.from_slice d = some (.ok ⟨h, j, b⟩) := by
  unfold Glb.from_slice
  simp only [hh, if_pos hl, if_pos hv, h2]

theorem Glb.from_slice_version_err {d : List Nat} {h : Header} {r : List Nat}
    (hh : Header.from_reader d = .ok (h, r)) (hl : h.length ≤ r.length)
    (hv : h.version ≠ 2) :
    Glb.from_slice d = some (.error (.Version h.version)) := by
  unfold Glb.from_slice
  simp only [hh, if_pos hl, if_neg hv]

theorem Glb.from_slice_length_err {d : List Nat} {h : Header} {r : List Nat}
    (hh : Header.from_reader d = .ok (h, r)) (hl : ¬ h.length ≤ r.length) :
    Glb.from_slice d = some (.error (.Length h.length r.length)) := by
  unfold Glb.from_slice
  simp only [hh, if_neg hl]

theorem Glb.from_slice_header_err {d : List Nat} {e : GlbError}
    (hh : Header.from_reader d = .error e) :
    Glb.from_slice d = some (.error e) := by
  unfold Glb.from_slice
  simp only [hh]

theorem Header.from_reader_ok_inv {d : List Nat} {h : Header} {r : List Nat}
    (he : Header.from_reader d = .ok (h, r)) :
    12 ≤ d.length ∧ d.take 4 = glTFMagic ∧
      h = ⟨glTFMagic, u32leL ((d.drop 4).take 4), u32leL ((d.drop 8).take 4)⟩ ∧
      r = d.drop 12 := by
  rw [Header.header_reader_eq] at he
  split_ifs at he with h4 hm h12
  · simp only [Except.ok.injEq, Prod.mk.injEq] at he
    exact ⟨h12, hm, he.1.symm, he.2.symm⟩

theorem Glb.from_slice_ok_inv {d : List Nat} {g : Glb}
    (he : Glb.from_slice d = some (.ok g)) :
    ∃ r, Header.from_reader d = .ok (g.header, r) ∧ g.header.length ≤ r.length ∧
      g.header.version = 2 ∧ Glb.from_v2 r = some (.ok (g.json, g.bin)) := by
  unfold Glb.from_slice at he
  cases hh : Header.from_reader d with
  | error e => simp only [hh] at he; simp at he
  | ok p =>
    obtain ⟨h, r⟩ := p
    simp only [hh] at he
    split_ifs at he with hl hv
    · cases h2 : Glb.from_v2 r with
      | none => simp only [h2] at he; simp at he
      | some o =>
        simp only [h2] at he
        cases o with
        | error e => simp at he
        | ok q =>
          obtain ⟨j, b⟩ := q
          simp only [Option.some.injEq, Except.ok.injEq] at he
          subst he
          exact ⟨r, rfl, hl, hv, h2⟩
    all_goals simp at he

theorem Glb.from_v2_ok_some_inv {d j b : List Nat}
    (he : Glb.from_v2 d = some (.ok (j, some b))) :
    8 ≤ d.length ∧ (d.drop 4).take 4 = jsonTag ∧
      u32leL (d.take 4) ≤ d.length - 8 ∧
      j = (d.drop 8).take (u32leL (d.take 4)) ∧
      0 < d.length - 8 - u32leL (d.take 4) ∧
      8 ≤ d.length - 8 - u32leL (d.take 4) ∧
      (((d.drop 8).drop (u32leL (d.take 4))).drop 4).take 4 = binTag ∧
      u32leL (((d.drop 8).drop (u32leL (d.take 4))).take 4) ≤
        d.length - 8 - u32leL (d.take 4) - 8 ∧
      b = (((d.drop 8).drop (u32leL (d.take 4))).drop 8).take
        (u32leL (((d.drop 8).drop (u32leL (d.take 4))).take 4)) := by
  rw [Glb.from_v2_eq] at he
  split_ifs at he with h1 h2 h3 h4 h5 h6 h7
  · simp only [Option.some.injEq, Except.ok.injEq, Prod.mk.injEq] at he
    exact ⟨h1, h2, h3, he.1.symm, h4, h5, h6, h7, he.2.symm⟩
  all_goals simp at he

theorem Header.from_reader_append {d e : List Nat} {h : Header} {r : List Nat}
    (he : Header.from_reader d = .ok (h, r)) :
    Header.from_reader (d ++ e) = .ok (h, r ++ e) := by
  obtain ⟨h12, hm, hh, hr⟩ := Header.from_reader_ok_inv he
  rw [Header.header_reader_eq]
  rw [if_pos (show 4 ≤ (d ++ e).length by simp only [List.length_append]; omega)]
  rw [List.take_append_of_le_length (show 4 ≤ d.length by omega), if_pos hm]
  rw [if_pos (show 12 ≤ (d ++ e).length by simp only [List.length_append]; omega)]
  rw [List.drop_append_of_le_length (show 4 ≤ d.length by omega),
    List.drop_append_of_le_length (show 8 ≤ d.length by omega),
    List.drop_append_of_le_length (show 12 ≤ d.length by omega),
    List.take_append_of_le_length
      (show 4 ≤ (d.drop 4).length by simp only [List.length_drop]; omega),
    List.take_append_of_le_length
      (show 4 ≤ (d.drop 8).length by simp only [List.length_drop]; omega)]
  rw [hh, hr]

theorem Glb.from_v2_append_bin {d e j b : List Nat}
    (he : Glb.from_v2 d = some (.ok (j, some b))) :
    Glb.from_v2 (d ++ e) = some (.ok (j, some b)) := by
  obtain ⟨h1, h2, h3, hj, h4, h5, h6, h7, hb⟩ := Glb.from_v2_ok_some_inv he
  rw [Glb.from_v2_eq]
  rw [List.take_append_of_le_length (show 4 ≤ d.length by omega),
    List.drop_append_of_le_length (show 4 ≤ d.length by omega),
    List.take_append_of_le_length
      (show 4 ≤ (d.drop 4).length by simp only [List.length_drop]; omega),
    List.drop_append_of_le_length (show 8 ≤ d.length by omega),
    List.drop_append_of_le_length
      (show u32leL (d.take 4) ≤ (d.drop 8).length by
        simp only [List.length_drop]; omega),
    List.take_append_of_le_length
      (show u32leL (d.take 4) ≤ (d.drop 8).length by
        simp only [List.length_drop]; omega),
    List.take_append_of_le_length
      (show 4 ≤ ((d.drop 8).drop (u32leL (d.take 4))).length by
        simp only [List.length_drop]; omega),
    List.drop_append_of_le_length
      (show 4 ≤ ((d.drop 8).drop (u32leL (d.take 4))).length by
        simp only [List.length_drop]; omega),
    List.take_append_of_le_length
      (show 4 ≤ (((d.drop 8).drop (u32leL (d.take 4))).drop 4).length by
        simp only [List.length_drop]; omega),
    List.drop_append_of_le_length
      (show 8 ≤ ((d.drop 8).drop (u32leL (d.take 4))).length by
        simp only [List.length_drop]; omega),
    List.take_append_of_le_length
      (show u32leL (((d.drop 8).drop (u32leL (d.take 4))).take 4) ≤
          (((d.drop 8).drop (u32leL (d.take 4))).drop 8).length by
        simp only [List.length_drop]; omega)]
  rw [if_pos (show 8 ≤ (d ++ e).length by simp only [List.length_append]; omega)]
  rw [if_pos h2]
  rw [if_pos (show u32leL (d.take 4) ≤ (d ++ e).length - 8 by
    simp only [List.length_append]; omega)]
  rw [if_pos (show 0 < (d ++ e).length - 8 - u32leL (d.take 4) by
    simp only [List.length_append]; omega)]
  rw [if_pos (show 8 ≤ (d ++ e).length - 8 - u32leL (d.take 4) by
    simp only [List.length_append]; omega)]
  rw [if_pos h6]
  rw [if_pos (show u32leL (((d.drop 8).drop (u32leL (d.take 4))).take 4) ≤
      (d ++ e).length - 8 - u32leL (d.take 4) - 8 by
    simp only [List.length_append]; omega)]
  rw [hj, hb]

theorem readExact_chunk_lt {bs : List Nat} {r : Script} {n : Nat}
    (h : n < bs.length) :
    readExact (.chunk bs :: r) n = some (bs.take n, .chunk (bs.drop n) :: r) := by
  cases n with
  | zero => simp [readExact]
  | succ m =>
    unfold readExact
    rw [if_pos (by omega), if_neg (by omega)]

theorem readExact_chunk_all {bs : List Nat} {r : Script} {n : Nat}
    (h : bs.length = n) (h0 : 0 < n) :
    readExact (.chunk bs :: r) n = some (bs, r) := by
  cases n with
  | zero => omega
  | succ m =>
    unfold readExact
    rw [if_pos (by omega), if_pos h, ← h, List.take_length]

theorem readExact_chunk_short {bs : List Nat} {n : Nat} (h : bs.length < n) :
    readExact [.chunk bs] n = none := by
  cases n with
  | zero => omega
  | succ m =>
    unfold readExact
    rw [if_neg (by omega)]
    by_cases h0 : bs.length = 0
    · rw [if_pos h0]
    · rw [if_neg h0]
      have hm : m + 1 - bs.length = (m - bs.length) + 1 := by omega
      rw [hm]
      rfl

theorem readExact_nil (n : Nat) : readExact [] (n + 1) = none := rfl

theorem Header.fromScript_chunk_eq (d : List Nat) :
    Header.fromScript [.chunk d] =
      if 4 ≤ d.length then
        if d.take 4 = glTFMagic then
          if 12 ≤ d.length then
            .ok (⟨glTFMagic, u32leL ((d.drop 4).take 4), u32leL ((d.drop 8).take 4)⟩,
              if d.length = 12 then [] else [.chunk (d.drop 12)])
          else .error .IoError
        else .error (.Magic (d.take 4))
      else .error .IoError := by
  unfold Header.fromScript
  by_cases h4 : 4 ≤ d.length
  · rw [if_pos h4]
    by_cases he4 : d.length = 4
    · simp only [readExact_chunk_all he4 (by omega), readExact_nil]
      rw [List.take_of_length_le (show d.length ≤ 4 by omega)]
      by_cases hm : d = glTFMagic
      · rw [if_pos hm, if_pos hm, if_neg (show ¬ 12 ≤ d.length by omega)]
      · rw [if_neg hm, if_neg hm]
    · simp only [readExact_chunk_lt (show 4 < d.length by omega)]
      by_cases hm : d.take 4 = glTFMagic
      · rw [if_pos hm, if_pos hm]
        by_cases h8 : 8 ≤ d.length
        · by_cases he8 : d.length = 8
          · simp only [readExact_chunk_all
              (show (d.drop 4).length = 4 by simp only [List.length_drop]; omega)
              (by omega), readExact_nil]
            rw [if_neg (show ¬ 12 ≤ d.length by omega)]
          · simp only [readExact_chunk_lt
              (show 4 < (d.drop 4).length by simp only [List.length_drop]; omega)]
            by_cases h12 : 12 ≤ d.length
            · by_cases he12 : d.length = 12
              · simp only [readExact_chunk_all
                  (show ((d.drop 4).drop 4).length = 4 by
                    simp only [List.length_drop]; omega) (by omega)]
                rw [if_pos h12, if_pos he12]
                rw [show (d.drop 4).drop 4 = d.drop 8 from by simp [List.drop_drop]]
                rw [List.take_of_length_le
                  (show (d.drop 8).length ≤ 4 by simp only [List.length_drop]; omega)]
                simp [List.drop_drop, hm]
              · simp only [readExact_chunk_lt
                  (show 4 < ((d.drop 4).drop 4).length by
                    simp only [List.length_drop]; omega)]
                rw [if_pos h12, if_neg he12]
                simp [List.drop_drop, hm]
            · simp only [readExact_chunk_short
                (show ((d.drop 4).drop 4).length < 4 by
                  simp only [List.length_drop]; omega)]
              rw [if_neg h12]
        · simp only [readExact_chunk_short
            (show (d.drop 4).length < 4 by simp only [List.length_drop]; omega)]
          rw [if_neg (show ¬ 12 ≤ d.length by omega)]
      · rw [if_neg hm, if_neg hm]
  · rw [if_neg h4]
    simp only [readExact_chunk_short (show d.length < 4 by omega)]

theorem Header.fromScript_error_inv {s : Script} {e : GlbError}
    (he : Header.fromScript s = .error e) :
    e = .IoError ∨ ∃ m, e = .Magic m := by
  unfold Header.fromScript at he
  cases h1 : readExact s 4 with
  | none => simp only [h1] at he; left; exact (Except.error.inj he).symm
  | some p =>
    obtain ⟨magic, s1⟩ := p
    simp only [h1] at he
    by_cases hm : magic = glTFMagic
    · rw [if_pos hm] at he
      cases h2 : readExact s1 4 with
      | none => simp only [h2] at he; left; exact (Except.error.inj he).symm
      | some q =>
        obtain ⟨vb, s2⟩ := q
        simp only [h2] at he
        cases h3 : readExact s2 4 with
        | none => simp only [h3] at he; left; exact (Except.error.inj he).symm
        | some w =>
          obtain ⟨lb, s3⟩ := w
          simp only [h3] at he
          simp at he
    · rw [if_neg hm] at he
      right
      exact ⟨magic, (Except.error.inj he).symm⟩

theorem Header.fromScript_ok_inv {s : Script} {h : Header} {s1 : Script}
    (he : Header.fromScript s = .ok (h, s1)) :
    h.magic = glTFMagic := by
  unfold Header.fromScript at he
  cases h1 : readExact s 4 with
  | none => simp only [h1] at he; simp at he
  | some p =>
    obtain ⟨magic, t1⟩ := p
    simp only [h1] at he
    by_cases hm : magic = glTFMagic
    · rw [if_pos hm] at he
      cases h2 : readExact t1 4 with
      | none => simp only [h2] at he; simp at he
      | some q =>
        obtain ⟨vb, t2⟩ := q
        simp only [h2] at he
        cases h3 : readExact t2 4 with
        | none => simp only [h3] at he; simp at he
        | some w =>
          obtain ⟨lb, t3⟩ := w
          simp only [h3] at he
          simp only [Except.ok.injEq, Prod.mk.injEq] at he
          rw [← he.1]
          exact hm
    · rw [if_neg hm] at he
      simp at he

theorem Glb.fromReader_header_err {s : Script} {e : GlbError} (buf : List Nat)
    (hh : Header.fromScript s = .error e) :
    Glb.fromReader s buf = some (.error e, buf) := by
  unfold Glb.fromReader
  simp only [hh]

theorem Glb.fromReader_version_err {s : Script} {h : Header} {s1 : Script}
    (buf : List Nat) (hh : Header.fromScript s = .ok (h, s1)) (hv : h.version ≠ 2) :
    Glb.fromReader s buf = some (.error (.Version h.version), buf) := by
  unfold Glb.fromReader
  simp only [hh, if_neg hv]

theorem Glb.fromReader_read_fail {s : Script} {h : Header} {s1 : Script}
    (buf : List Nat) (hh : Header.fromScript s = .ok (h, s1)) (hv : h.version = 2)
    (hr : scriptRead s1 h.length = none) :
    Glb.fromReader s buf = some (.error .IoError, []) := by
  unfold Glb.fromReader
  simp only [hh, if_pos hv, hr]

theorem Glb.fromReader_read_short {s : Script} {h : Header} {s1 s2 : Script}
    {bs : List Nat} (buf : List Nat)
    (hh : Header.fromScript s = .ok (h, s1)) (hv : h.version = 2)
    (hr : scriptRead s1 h.length = some (bs, s2)) (hb : bs.length ≠ h.length) :
    Glb.fromReader s buf = some (.error (.Length h.length bs.length), []) := by
  unfold Glb.fromReader
  simp only [hh, if_pos hv, hr, if_neg hb]

theorem Glb.fromReader_ok_of {s : Script} {h : Header} {s1 s2 : Script}
    {bs j : List Nat} {b : Option (List Nat)} (buf : List Nat)
    (hh : Header.fromScript s = .ok (h, s1)) (hv : h.version = 2)
    (hr : scriptRead s1 h.length = some (bs, s2)) (hb : bs.length = h.length)
    (h2 : Glb.from_v2 bs = some (.ok (j, b))) :
    Glb.fromReader s buf = some (.ok ⟨h, j, b⟩, bs) := by
  unfold Glb.fromReader
  simp only [hh, if_pos hv, hr, if_pos hb, h2]

theorem Glb.fromReader_ok_inv {s : Script} {buf : List Nat} {g : Glb} {b : List Nat}
    (he : Glb.fromReader s buf = some (.ok g, b)) :
    ∃ s1 s2, Header.fromScript s = .ok (g.header, s1) ∧ g.header.version = 2 ∧
      scriptRead s1 g.header.length = some (b, s2) ∧ b.length = g.header.length ∧
      Glb.from_v2 b = some (.ok (g.json, g.bin)) := by
  unfold Glb.fromReader at he
  cases hh : Header.fromScript s with
  | error e => simp only [hh] at he; simp at he
  | ok p =>
    obtain ⟨h, s1⟩ := p
    simp only [hh] at he
    by_cases hv : h.version = 2
    · rw [if_pos hv] at he
      cases hr : scriptRead s1 h.length with
      | none => simp only [hr] at he; simp at he
      | some q =>
        obtain ⟨bs, s2⟩ := q
        simp only [hr] at he
        by_cases hb : bs.length = h.length
        · rw [if_pos hb] at he
          cases h2 : Glb.from_v2 bs with
          | none => simp only [h2] at he; simp at he
          | some o =>
            simp only [h2] at he
            cases o with
            | error e => simp at he
            | ok q2 =>
              obtain ⟨j, bin⟩ := q2
              simp only [Option.some.injEq, Prod.mk.injEq, Except.ok.injEq] at he
              obtain ⟨hg, hbs⟩ := he
              subst hbs
              subst hg
              exact ⟨s1, s2, rfl, hv, hr, hb, h2⟩
        · rw [if_neg hb] at he; simp at he
    · rw [if_neg hv] at he; simp at he

/-- Claim C1: for every finite byte sequence both decode entry points
return a value — `Ok` or a structured error — and never panic: the
`none` that models an unguarded `split_at` is unreachable, every slice
split being preceded by a bounds check. -/
theorem C1_no_panic :
    (∀ data : List Nat, (Glb.from_slice data).isSome) ∧
      ∀ (s : Script) (buf : List Nat), (Glb.fromReader s buf).isSome :=
  ⟨Glb.from_slice_isSome, Glb.fromReader_isSome⟩

/-- Claim C2 is false as stated: a synthesized container whose length
field (9) is at least — here strictly greater than — the 8 bytes
following the 12-byte header is rejected with `Length 9 8` by
`from_slice`, not decoded to `Ok`. -/
theorem C2_counterexample :
    Glb.from_slice (glTFMagic ++ u32leBytes 2 ++ u32leBytes 9 ++
      u32leBytes 0 ++ jsonTag) = some (.error (.Length 9 8)) := by rfl

/-- Claim C2 amended: with a length field at most (rather than at least)
the number of bytes following the 12-byte header, a synthesized
container decodes to `Ok` with `json == J` and `bin == some B` (or
`none` without a second chunk); the spec's concrete example decodes as
claimed. -/
theorem C2_round_trip :
    (∀ (J B : List Nat) (L : Nat),
        L ≤ 16 + J.length + B.length → L < 4294967296 →
        J.length < 4294967296 → B.length < 4294967296 →
        Glb.from_slice (glTFMagic ++ u32leBytes 2 ++ u32leBytes L ++
            u32leBytes J.length ++ jsonTag ++ J ++
            u32leBytes B.length ++ binTag ++ B) =
          some (.ok ⟨⟨glTFMagic, 2, L⟩, J, some B⟩)) ∧
    (∀ (J : List Nat) (L : Nat),
        L ≤ 8 + J.length → L < 4294967296 → J.length < 4294967296 →
        Glb.from_slice (glTFMagic ++ u32leBytes 2 ++ u32leBytes L ++
            u32leBytes J.length ++ jsonTag ++ J) =
          some (.ok ⟨⟨glTFMagic, 2, L⟩, J, none⟩)) ∧
    Glb.from_slice exampleBytes =
      some (.ok ⟨⟨glTFMagic, 2, 21⟩, [123, 125], some [222, 173, 190]⟩) := by
  refine ⟨?_, ?_, by rfl⟩
  · intro J B L hL hL32 hJ32 hB32
    simp only [List.append_assoc]
    have hv2 : Glb.from_v2 (u32leBytes J.length ++ (jsonTag ++ (J ++
        (u32leBytes B.length ++ (binTag ++ (B ++ [])))))) =
        some (.ok (J, some B)) :=
      Glb.from_v2_front_bin (length_u32leBytes _) (u32leL_u32leBytes hJ32)
        (length_u32leBytes _) (u32leL_u32leBytes hB32)
    rw [List.append_nil] at hv2
    have hh := Header.header_reader_front
      (r := u32leBytes J.length ++ (jsonTag ++ (J ++
        (u32leBytes B.length ++ (binTag ++ B)))))
      (length_u32leBytes 2) (length_u32leBytes L)
    rw [u32leL_u32leBytes (show (2 : Nat) < 4294967296 by norm_num),
      u32leL_u32leBytes hL32] at hh
    exact Glb.from_slice_ok_of hh
      (show L ≤ (u32leBytes J.length ++ (jsonTag ++ (J ++
          (u32leBytes B.length ++ (binTag ++ B))))).length by
        simp [List.length_append, length_u32leBytes, jsonTag, binTag]; omega)
      rfl hv2
  · intro J L hL hL32 hJ32
    simp only [List.append_assoc]
    have hv2 : Glb.from_v2 (u32leBytes J.length ++ (jsonTag ++ J)) =
        some (.ok (J, none)) :=
      Glb.from_v2_front_nobin (length_u32leBytes _) (u32leL_u32leBytes hJ32)
    have hh := Header.header_reader_front
      (r := u32leBytes J.length ++ (jsonTag ++ J))
      (length_u32leBytes 2) (length_u32leBytes L)
    rw [u32leL_u32leBytes (show (2 : Nat) < 4294967296 by norm_num),
      u32leL_u32leBytes hL32] at hh
    exact Glb.from_slice_ok_of hh
      (show L ≤ (u32leBytes J.length ++ (jsonTag ++ J)).length by
        simp [List.length_append, length_u32leBytes, jsonTag]; omega)
      rfl hv2

/-- Witness for the amended claim C2 at the spec's example payloads. -/
theorem C2_round_trip_witness :
    Glb.from_slice (glTFMagic ++ u32leBytes 2 ++ u32leBytes 21 ++
        u32leBytes 2 ++ jsonTag ++ [123, 125] ++ u32leBytes 3 ++ binTag ++
        [222, 173, 190]) =
      some (.ok ⟨⟨glTFMagic, 2, 21⟩, [123, 125], some [222, 173, 190]⟩) :=
  C2_round_trip.1 [123, 125] [222, 173, 190] 21 (by decide) (by decide)
    (by decide) (by decide)

/-- Claim C3: in the streaming entry point, once the header has parsed
with version 2, a failing body read yields `IoError` and a short body
read yields `Length`, and in both cases the caller-supplied buffer is
left with reported length exactly zero, whatever it held before. -/
theorem C3_buffer_reset (s : Script) (buf : List Nat) (h : Header) (s1 : Script)
    (hh : Header.fromScript s = .ok (h, s1)) (hv : h.version = 2) :
    (scriptRead s1 h.length = none →
      Glb.fromReader s buf = some (.error .IoError, [])) ∧
    ∀ (bs : List Nat) (s2 : Script),
      scriptRead s1 h.length = some (bs, s2) → bs.length < h.length →
      Glb.fromReader s buf = some (.error (.Length h.length bs.length), []) := by
  constructor
  · intro hr
    exact Glb.fromReader_read_fail buf hh hv hr
  · intro bs s2 hr hlt
    exact Glb.fromReader_read_short buf hh hv hr (by omega)

/-- Witness for C3: a reader failing after the header, and a reader
delivering 3 of 5 declared body bytes, both leave a pre-seeded buffer
empty. -/
theorem C3_buffer_reset_witness :
    Glb.fromReader [.chunk (glTFMagic ++ u32leBytes 2 ++ u32leBytes 5), .fail]
        [7, 7] = some (.error .IoError, []) ∧
    Glb.fromReader [.chunk (glTFMagic ++ u32leBytes 2 ++ u32leBytes 5 ++ [1, 2, 3])]
        [7, 7] = some (.error (.Length 5 3), []) :=
  ⟨(C3_buffer_reset [.chunk (glTFMagic ++ u32leBytes 2 ++ u32leBytes 5), .fail]
      [7, 7] ⟨glTFMagic, 2, 5⟩ [.fail] (by rfl) rfl).1 (by rfl),
   (C3_buffer_reset [.chunk (glTFMagic ++ u32leBytes 2 ++ u32leBytes 5 ++ [1, 2, 3])]
      [7, 7] ⟨glTFMagic, 2, 5⟩ [.chunk [1, 2, 3]] (by rfl) rfl).2
      [1, 2, 3] [] (by rfl) (by norm_num)⟩

/-- Claim C4: whenever either entry point returns `Ok`, the header has
the required magic, version 2, and a declared length bounded by the
bytes available after the 12-byte header; on the streaming path the
populated buffer holds exactly `header.length` bytes. -/
theorem C4_ok_invariants :
    (∀ (data : List Nat) (g : Glb), Glb.from_slice data = some (.ok g) →
      g.header.magic = glTFMagic ∧ g.header.version = 2 ∧
        g.header.length ≤ data.length - 12) ∧
    ∀ (s : Script) (buf : List Nat) (g : Glb) (b : List Nat),
      Glb.fromReader s buf = some (.ok g, b) →
      g.header.magic = glTFMagic ∧ g.header.version = 2 ∧
        b.length = g.header.length := by
  constructor
  · intro data g he
    obtain ⟨r, hh, hl, hv, h2⟩ := Glb.from_slice_ok_inv he
    obtain ⟨h12, hm, hdr, hr⟩ := Header.from_reader_ok_inv hh
    refine ⟨by rw [hdr], hv, ?_⟩
    subst hr
    simp only [List.length_drop] at hl
    omega
  · intro s buf g b he
    obtain ⟨s1, s2, hh, hv, hr, hb, h2⟩ := Glb.fromReader_ok_inv he
    exact ⟨Header.fromScript_ok_inv hh, hv, hb⟩

/-- Witness for C4 at the spec's example, over both entry points. -/
theorem C4_ok_invariants_witness :
    ((⟨⟨glTFMagic, 2, 21⟩, [123, 125], some [222, 173, 190]⟩ : Glb).header.magic =
        glTFMagic ∧
      (⟨⟨glTFMagic, 2, 21⟩, [123, 125], some [222, 173, 190]⟩ : Glb).header.version =
        2 ∧
      (⟨⟨glTFMagic, 2, 21⟩, [123, 125], some [222, 173, 190]⟩ : Glb).header.length ≤
        exampleBytes.length - 12) ∧
    ((⟨⟨glTFMagic, 2, 21⟩, [123, 125], some [222, 173, 190]⟩ : Glb).header.magic =
        glTFMagic ∧
      (⟨⟨glTFMagic, 2, 21⟩, [123, 125], some [222, 173, 190]⟩ : Glb).header.version =
        2 ∧
      (exampleBytes.drop 12).length =
        (⟨⟨glTFMagic, 2, 21⟩, [123, 125], some [222, 173, 190]⟩ : Glb).header.length) :=
  ⟨C4_ok_invariants.1 exampleBytes
      ⟨⟨glTFMagic, 2, 21⟩, [123, 125], some [222, 173, 190]⟩ (by rfl),
   C4_ok_invariants.2 [.chunk exampleBytes] [9]
      ⟨⟨glTFMagic, 2, 21⟩, [123, 125], some [222, 173, 190]⟩
      (exampleBytes.drop 12) (by rfl)⟩

/-- Claim C5: after a successful header read (and, on the slice path, a
passed top-level length check), any version other than 2 yields
`Version` carrying the actual value — on the streaming path without
touching the caller's buffer — while version 2 proceeds to the chunk
splitter. -/
theorem C5_version_dispatch :
    (∀ (d : List Nat) (h : Header) (r : List Nat),
      Header.from_reader d = .ok (h, r) → h.length ≤ r.length →
      h.version ≠ 2 →
      Glb.from_slice d = some (.error (.Version h.version))) ∧
    (∀ (d : List Nat) (h : Header) (r j : List Nat) (b : Option (List Nat)),
      Header.from_reader d = .ok (h, r) → h.length ≤ r.length →
      h.version = 2 → Glb.from_v2 r = some (.ok (j, b)) →
      Glb.from_slice d = some (.ok ⟨h, j, b⟩)) ∧
    (∀ (s : Script) (buf : List Nat) (h : Header) (s1 : Script),
      Header.fromScript s = .ok (h, s1) → h.version ≠ 2 →
      Glb.fromReader s buf = some (.error (.Version h.version), buf)) ∧
    ∀ (s : Script) (buf : List Nat) (h : Header) (s1 s2 : Script)
      (bs j : List Nat) (b : Option (List Nat)),
      Header.fromScript s = .ok (h, s1) → h.version = 2 →
      scriptRead s1 h.length = some (bs, s2) → bs.length = h.length →
      Glb.from_v2 bs = some (.ok (j, b)) →
      Glb.fromReader s buf = some (.ok ⟨h, j, b⟩, bs) :=
  ⟨fun _ _ _ hh hl hv => Glb.from_slice_version_err hh hl hv,
   fun _ _ _ _ _ hh hl hv h2 => Glb.from_slice_ok_of hh hl hv h2,
   fun _ buf _ _ hh hv => Glb.fromReader_version_err buf hh hv,
   fun _ buf _ _ _ _ _ _ hh hv hr hb h2 =>
     Glb.fromReader_ok_of buf hh hv hr hb h2⟩

/-- Witness for C5: version 3 is rejected (slice and stream, buffer
untouched), version 2 proceeds to `Ok` (slice and stream). -/
theorem C5_version_dispatch_witness :
    Glb.from_slice (glTFMagic ++ u32leBytes 3 ++ u32leBytes 0) =
      some (.error (.Version 3)) ∧
    Glb.from_slice exampleBytes =
      some (.ok ⟨⟨glTFMagic, 2, 21⟩, [123, 125], some [222, 173, 190]⟩) ∧
    Glb.fromReader [.chunk (glTFMagic ++ u32leBytes 3 ++ u32leBytes 0)] [5] =
      some (.error (.Version 3), [5]) ∧
    Glb.fromReader [.chunk exampleBytes] [5] =
      some (.ok ⟨⟨glTFMagic, 2, 21⟩, [123, 125], some [222, 173, 190]⟩,
        exampleBytes.drop 12) :=
  ⟨C5_version_dispatch.1 (glTFMagic ++ u32leBytes 3 ++ u32leBytes 0)
      ⟨glTFMagic, 3, 0⟩ [] (by rfl) (by decide) (by decide),
   C5_version_dispatch.2.1 exampleBytes ⟨glTFMagic, 2, 21⟩
      (exampleBytes.drop 12) [123, 125] (some [222, 173, 190]) (by rfl)
      (by decide) rfl (by rfl),
   C5_version_dispatch.2.2.1 [.chunk (glTFMagic ++ u32leBytes 3 ++ u32leBytes 0)]
      [5] ⟨glTFMagic, 3, 0⟩ [] (by rfl) (by decide),
   C5_version_dispatch.2.2.2 [.chunk exampleBytes] [5] ⟨glTFMagic, 2, 21⟩
      [.chunk (exampleBytes.drop 12)] [] (exampleBytes.drop 12) [123, 125]
      (some [222, 173, 190]) (by rfl) rfl (by rfl) (by rfl) (by rfl)⟩

/-- Claim C6: in the chunk splitter a wrong tag in the first (JSON) or
second (binary) position yields `ChunkType` carrying the actual tag
bytes, with the tag check preceding the length check: the declared
lengths here are unconstrained, so a wrong-tag chunk with an overlong
length is still reported as `ChunkType`. -/
theorem C6_chunk_tag_precedence :
    (∀ (c t r : List Nat), c.length = 4 → t.length = 4 → t ≠ jsonTag →
      Glb.from_v2 (c ++ t ++ r) = some (.error (.ChunkType t))) ∧
    ∀ (jl J bl t r : List Nat), jl.length = 4 → u32leL jl = J.length →
      bl.length = 4 → t.length = 4 → t ≠ binTag →
      Glb.from_v2 (jl ++ jsonTag ++ J ++ bl ++ t ++ r) =
        some (.error (.ChunkType t)) := by
  constructor
  · intro c t r hc ht htn
    simp only [List.append_assoc]
    unfold Glb.from_v2
    simp only [ChunkHeader.chunk_reader_front hc ht]
    rw [if_neg htn]
  · intro jl J bl t r h1 h2 h3 h4 htn
    simp only [List.append_assoc]
    unfold Glb.from_v2
    simp only [ChunkHeader.chunk_reader_front h1
      (show jsonTag.length = 4 from rfl), if_pos]
    rw [if_pos (show u32leL jl ≤ (J ++ (bl ++ (t ++ r))).length by simp [h2])]
    have hrb : readBytes (u32leL jl) (J ++ (bl ++ (t ++ r))) =
        some (J, bl ++ (t ++ r)) := readBytes_front h2.symm
    simp only [hrb]
    rw [if_pos (show 0 < (bl ++ (t ++ r)).length by simp [h3])]
    simp only [ChunkHeader.chunk_reader_front h3 h4]
    rw [if_neg htn]

/-- Witness for C6: a first chunk tagged `BIN\x00` with an overlong
declared length (999), and a second chunk tagged `JSON` with an
overlong declared length, are both reported as `ChunkType`. -/
theorem C6_chunk_tag_precedence_witness :
    Glb.from_v2 (u32leBytes 999 ++ binTag ++ []) =
      some (.error (.ChunkType binTag)) ∧
    Glb.from_v2 (u32leBytes 0 ++ jsonTag ++ [] ++ u32leBytes 999 ++ jsonTag ++ []) =
      some (.error (.ChunkType jsonTag)) :=
  ⟨C6_chunk_tag_precedence.1 (u32leBytes 999) binTag [] (by decide) (by decide)
      (by decide),
   C6_chunk_tag_precedence.2 (u32leBytes 0) [] (u32leBytes 999) jsonTag []
      (by decide) (by decide) (by decide) (by decide) (by decide)⟩

/-- Claim C7: trailing bytes after the binary chunk's data are never
inspected: whenever `from_slice` succeeds with `bin = some b`,
appending arbitrary bytes (header length field unchanged) still
succeeds with the identical result. -/
theorem C7_trailing_ignored (d x : List Nat) (g : Glb) (b : List Nat)
    (h : Glb.from_slice d = some (.ok g)) (hb : g.bin = some b) :
    Glb.from_slice (d ++ x) = some (.ok g) := by
  obtain ⟨r, hh, hl, hv, h2⟩ := Glb.from_slice_ok_inv h
  rw [hb] at h2
  have hha := Header.from_reader_append (e := x) hh
  have h2a := Glb.from_v2_append_bin (e := x) h2
  have hres := Glb.from_slice_ok_of hha
    (show g.header.length ≤ (r ++ x).length by
      simp only [List.length_append]; omega) hv h2a
  rw [show (⟨g.header, g.json, some b⟩ : Glb) = g from by rw [← hb]] at hres
  exact hres

/-- Witness for C7: the spec's example with two junk bytes appended
decodes to the identical result. -/
theorem C7_trailing_ignored_witness :
    Glb.from_slice (exampleBytes ++ [9, 9]) =
      some (.ok ⟨⟨glTFMagic, 2, 21⟩, [123, 125], some [222, 173, 190]⟩) :=
  C7_trailing_ignored exampleBytes [9, 9]
    ⟨⟨glTFMagic, 2, 21⟩, [123, 125], some [222, 173, 190]⟩ [222, 173, 190]
    (by rfl) rfl

/-- Claim C8 is false as stated: truncating the spec's example container
mid-chunk makes `from_slice` fail with `Length`, not `Io`; and
truncating a valid container whose declared length covers only the JSON
chunk mid-binary-chunk makes `from_reader` succeed rather than fail. -/
theorem C8_counterexample :
    Glb.from_slice (exampleBytes.take 21) = some (.error (.Length 21 9)) ∧
    Glb.fromReader [.chunk (looseBytes.take 31)] [] =
      some (.ok ⟨⟨glTFMagic, 2, 10⟩, [123, 125], none⟩,
        [2, 0, 0, 0, 74, 83, 79, 78, 123, 125]) := by
  constructor <;> rfl

/-- Claim C8 amended: for a container whose declared length equals the
byte count following the 12-byte header, every proper-prefix truncation
fails in both entry points — with `Io` when the cut is inside the
12-byte header, and with the length-mismatch error `Length` otherwise;
the streaming path also empties the buffer in the latter case. -/
theorem C8_truncation (vb lb body : List Nat) (k : Nat) (buf : List Nat)
    (hv4 : vb.length = 4) (hl4 : lb.length = 4)
    (hv : u32leL vb = 2) (hl : u32leL lb = body.length)
    (hk : k < 12 + body.length) :
    (k < 12 →
      Glb.from_slice ((glTFMagic ++ vb ++ lb ++ body).take k) =
        some (.error .IoError) ∧
      Glb.fromReader [.chunk ((glTFMagic ++ vb ++ lb ++ body).take k)] buf =
        some (.error .IoError, buf)) ∧
    (12 ≤ k →
      Glb.from_slice ((glTFMagic ++ vb ++ lb ++ body).take k) =
        some (.error (.Length body.length (k - 12))) ∧
      Glb.fromReader [.chunk ((glTFMagic ++ vb ++ lb ++ body).take k)] buf =
        some (.error (.Length body.length (k - 12)), [])) := by
  simp only [List.append_assoc]
  have hd4 : (glTFMagic ++ (vb ++ (lb ++ body))).drop 4 = vb ++ (lb ++ body) :=
    List.drop_left' rfl
  have hd8 : (glTFMagic ++ (vb ++ (lb ++ body))).drop 8 = lb ++ body := by
    rw [show glTFMagic ++ (vb ++ (lb ++ body)) = (glTFMagic ++ vb) ++ (lb ++ body)
        from by simp [List.append_assoc]]
    exact List.drop_left' (by simp [hv4, glTFMagic])
  have hdl : (glTFMagic ++ (vb ++ (lb ++ body))).length = 12 + body.length := by
    simp only [List.length_append, hv4, hl4, glTFMagic, List.length_cons,
      List.length_nil]
    omega
  have ht : ((glTFMagic ++ (vb ++ (lb ++ body))).take k).length = k := by
    simp only [List.length_take]
    omega
  constructor
  · intro h12
    by_cases h4 : 4 ≤ k
    · have htk4 : ((glTFMagic ++ (vb ++ (lb ++ body))).take k).take 4 =
          glTFMagic := by
        rw [List.take_take, show min 4 k = 4 from by omega,
          List.take_left' (show glTFMagic.length = 4 from rfl)]
      have hH : Header.from_reader ((glTFMagic ++ (vb ++ (lb ++ body))).take k) =
          .error .IoError := by
        rw [Header.header_reader_eq, ht, htk4, if_pos h4, if_pos rfl,
          if_neg (by omega)]
      have hHs : Header.fromScript
          [.chunk ((glTFMagic ++ (vb ++ (lb ++ body))).take k)] =
          .error .IoError := by
        rw [Header.fromScript_chunk_eq, ht, htk4, if_pos h4, if_pos rfl,
          if_neg (by omega)]
      exact ⟨Glb.from_slice_header_err hH, Glb.fromReader_header_err buf hHs⟩
    · have hH : Header.from_reader ((glTFMagic ++ (vb ++ (lb ++ body))).take k) =
          .error .IoError := by
        rw [Header.header_reader_eq, ht, if_neg (by omega)]
      have hHs : Header.fromScript
          [.chunk ((glTFMagic ++ (vb ++ (lb ++ body))).take k)] =
          .error .IoError := by
        rw [Header.fromScript_chunk_eq, ht, if_neg (by omega)]
      exact ⟨Glb.from_slice_header_err hH, Glb.fromReader_header_err buf hHs⟩
  · intro h12
    have htk4 : ((glTFMagic ++ (vb ++ (lb ++ body))).take k).take 4 =
        glTFMagic := by
      rw [List.take_take, show min 4 k = 4 from by omega,
        List.take_left' (show glTFMagic.length = 4 from rfl)]
    have hvb : (((glTFMagic ++ (vb ++ (lb ++ body))).take k).drop 4).take 4 =
        vb := by
      rw [List.drop_take, hd4, List.take_take, show min 4 (k - 4) = 4 from by omega,
        List.take_left' hv4]
    have hlb : (((glTFMagic ++ (vb ++ (lb ++ body))).take k).drop 8).take 4 =
        lb := by
      rw [List.drop_take, hd8, List.take_take, show min 4 (k - 8) = 4 from by omega,
        List.take_left' hl4]
    have hrest : (((glTFMagic ++ (vb ++ (lb ++ body))).take k).drop 12).length =
        k - 12 := by
      simp only [List.length_drop, ht]
    have hH : Header.from_reader ((glTFMagic ++ (vb ++ (lb ++ body))).take k) =
        .ok (⟨glTFMagic, 2, body.length⟩,
          ((glTFMagic ++ (vb ++ (lb ++ body))).take k).drop 12) := by
      rw [Header.header_reader_eq, ht, htk4, if_pos (by omega), if_pos rfl,
        if_pos h12, hvb, hlb, hv, hl]
    have hslice := Glb.from_slice_length_err hH
      (show ¬ (⟨glTFMagic, 2, body.length⟩ : Header).length ≤
          (((glTFMagic ++ (vb ++ (lb ++ body))).take k).drop 12).length by
        rw [hrest]; show ¬ body.length ≤ k - 12; omega)
    rw [hrest] at hslice
    refine ⟨hslice, ?_⟩
    by_cases hk12 : k = 12
    · have hHs : Header.fromScript
          [.chunk ((glTFMagic ++ (vb ++ (lb ++ body))).take k)] =
          .ok (⟨glTFMagic, 2, body.length⟩, []) := by
        rw [Header.fromScript_chunk_eq, ht, htk4, if_pos (by omega), if_pos rfl,
          if_pos h12, if_pos hk12, hvb, hlb, hv, hl]
      have hstream := Glb.fromReader_read_short buf hHs rfl
        (show scriptRead [] (⟨glTFMagic, 2, body.length⟩ : Header).length =
          some ([], []) from rfl)
        (show ([] : List Nat).length ≠
            (⟨glTFMagic, 2, body.length⟩ : Header).length by
          show (0 : Nat) ≠ body.length; omega)
      simpa [hk12] using hstream
    · have hHs : Header.fromScript
          [.chunk ((glTFMagic ++ (vb ++ (lb ++ body))).take k)] =
          .ok (⟨glTFMagic, 2, body.length⟩,
            [.chunk (((glTFMagic ++ (vb ++ (lb ++ body))).take k).drop 12)]) := by
        rw [Header.fromScript_chunk_eq, ht, htk4, if_pos (by omega), if_pos rfl,
          if_pos h12, if_neg hk12, hvb, hlb, hv, hl]
      have hsr : scriptRead
          [.chunk (((glTFMagic ++ (vb ++ (lb ++ body))).take k).drop 12)]
          (⟨glTFMagic, 2, body.length⟩ : Header).length =
          some ((((glTFMagic ++ (vb ++ (lb ++ body))).take k).drop 12), []) := by
        simp only [scriptRead]
        rw [if_pos (show (((glTFMagic ++ (vb ++ (lb ++ body))).take k).drop
            12).length ≤ (⟨glTFMagic, 2, body.length⟩ : Header).length by
          rw [hrest]; show k - 12 ≤ body.length; omega)]
      have hstream := Glb.fromReader_read_short buf hHs rfl hsr
        (show (((glTFMagic ++ (vb ++ (lb ++ body))).take k).drop 12).length ≠
            (⟨glTFMagic, 2, body.length⟩ : Header).length by
          rw [hrest]; show k - 12 ≠ body.length; omega)
      rw [hrest] at hstream
      exact hstream

/-- Witness for the amended claim C8: the spec's example truncated to 5
bytes yields `Io`, and truncated to 21 bytes yields `Length 21 9`, in
both entry points. -/
theorem C8_truncation_witness :
    (Glb.from_slice ((glTFMagic ++ u32leBytes 2 ++ u32leBytes 21 ++
          exampleBytes.drop 12).take 5) = some (.error .IoError) ∧
      Glb.fromReader [.chunk ((glTFMagic ++ u32leBytes 2 ++ u32leBytes 21 ++
          exampleBytes.drop 12).take 5)] [3] =
        some (.error .IoError, [3])) ∧
    (Glb.from_slice ((glTFMagic ++ u32leBytes 2 ++ u32leBytes 21 ++
          exampleBytes.drop 12).take 21) = some (.error (.Length 21 9)) ∧
      Glb.fromReader [.chunk ((glTFMagic ++ u32leBytes 2 ++ u32leBytes 21 ++
          exampleBytes.drop 12).take 21)] [3] =
        some (.error (.Length 21 9), [])) :=
  ⟨(C8_truncation (u32leBytes 2) (u32leBytes 21) (exampleBytes.drop 12) 5 [3]
      (by decide) (by decide) (by decide) (by decide) (by decide)).1
      (by decide),
   (C8_truncation (u32leBytes 2) (u32leBytes 21) (exampleBytes.drop 12) 21 [3]
      (by decide) (by decide) (by decide) (by decide) (by decide)).2
      (by decide)⟩

/-- Claim C9: the streaming entry point never exposes pre-call buffer
contents as valid data: an `Ok` outcome, including the final buffer
contents, is entirely determined by the reader and independent of
whatever the caller's buffer held before the call. -/
theorem C9_buffer_independence (s : Script) (b0 b1 : List Nat) (g : Glb)
    (b : List Nat) (h : Glb.fromReader s b0 = some (.ok g, b)) :
    Glb.fromReader s b1 = some (.ok g, b) := by
  obtain ⟨s1, s2, hh, hv, hr, hb, h2⟩ := Glb.fromReader_ok_inv h
  exact Glb.fromReader_ok_of b1 hh hv hr hb h2

/-- Witness for C9: decoding the spec's example from a stream gives the
same `Ok` result and final buffer for a different pre-seeded buffer. -/
theorem C9_buffer_independence_witness :
    Glb.fromReader [.chunk exampleBytes] [1, 2, 3] =
      some (.ok ⟨⟨glTFMagic, 2, 21⟩, [123, 125], some [222, 173, 190]⟩,
        exampleBytes.drop 12) :=
  C9_buffer_independence [.chunk exampleBytes] [9] [1, 2, 3]
    ⟨⟨glTFMagic, 2, 21⟩, [123, 125], some [222, 173, 190]⟩
    (exampleBytes.drop 12) (by rfl)

/-- Claim C10: if the streaming entry point fails while reading the
12-byte header itself — necessarily an `Io` or `Magic` failure — the
caller's buffer is returned exactly as it was; a version mismatch right
after the header likewise leaves it untouched, so the buffer is first
modified only after the header parses with version 2. -/
theorem C10_header_failure_frame (s : Script) (buf : List Nat) :
    (∀ e, Header.fromScript s = .error e →
      Glb.fromReader s buf = some (.error e, buf) ∧
        (e = .IoError ∨ ∃ m, e = .Magic m)) ∧
    ∀ (h : Header) (s1 : Script), Header.fromScript s = .ok (h, s1) →
      h.version ≠ 2 →
      Glb.fromReader s buf = some (.error (.Version h.version), buf) :=
  ⟨fun _ hh => ⟨Glb.fromReader_header_err buf hh, Header.fromScript_error_inv hh⟩,
   fun _ _ hh hv => Glb.fromReader_version_err buf hh hv⟩

/-- Witness for C10: a reader that fails immediately, and a version-1
header, both leave the pre-seeded buffer `[4, 5]` untouched. -/
theorem C10_header_failure_frame_witness :
    (Glb.fromReader [.fail] [4, 5] = some (.error .IoError, [4, 5]) ∧
      (GlbError.IoError = .IoError ∨ ∃ m, GlbError.IoError = .Magic m)) ∧
    Glb.fromReader [.chunk (glTFMagic ++ u32leBytes 1 ++ u32leBytes 0)] [4, 5] =
      some (.error (.Version 1), [4, 5]) :=
  ⟨(C10_header_failure_frame [.fail] [4, 5]).1 .IoError (by rfl),
   (C10_header_failure_frame [.chunk (glTFMagic ++ u32leBytes 1 ++ u32leBytes 0)]
      [4, 5]).2 ⟨glTFMagic, 1, 0⟩ [] (by rfl) (by decide)⟩

end Gltf
